import Mathlib

/-!
Verification development for the streaming speech-to-text pipeline
(`src/services/speech`): the text-deduplication assembler
(`StreamingManager`), the stderr-based segment-completion detector
(`ChunkProcessor`), and the session controller (`SpeechService`).
Each definition is a shallow embedding of the corresponding
TypeScript function; theorems settle the specification claims.
-/

/-- The whitespace class used by the JavaScript regex `\s` and by
`String.prototype.trim`, restricted to the ASCII characters that can
occur in the texts handled here. -/
def isWsChar (c : Char) : Bool :=
  c = ' ' || c = '\t' || c = '\n' || c = '\r' || c = '\x0b' || c = '\x0c'

/-- Accumulator-based splitting of a character list into maximal runs of
non-whitespace characters. `acc` holds the (reversed) current run. -/
def wordsAux : List Char → List Char → List String
  | [], acc => if acc = [] then [] else [String.mk acc.reverse]
  | c :: cs, acc =>
    if isWsChar c then
      if acc = [] then wordsAux cs [] else String.mk acc.reverse :: wordsAux cs []
    else
      wordsAux cs (c :: acc)

/-- The whitespace-delimited words of a string (maximal non-whitespace runs). -/
def wordsOf (s : String) : List String := wordsAux s.data []

/-- Models the JavaScript expression `s.trim().split(/\s+/)` from
`StreamingManager.deduplicateOverlap`: for a string with at least one
non-whitespace character this is its list of whitespace-delimited words;
for an empty or all-whitespace string, JavaScript returns the
one-element list containing the empty string. -/
def jsSplitWs (s : String) : List String :=
  if wordsOf s = [] then [""] else wordsOf s

/-- Models JavaScript `Array.prototype.join(" ")`. -/
def joinSpace : List String → String
  | [] => ""
  | [w] => w
  | w :: ws => w ++ (" " ++ joinSpace ws)

/-- Models JavaScript `String.prototype.toLowerCase` (ASCII range). -/
def lowerStr (s : String) : String := String.mk (s.data.map Char.toLower)

/-- Models JavaScript `arr.slice(-n)` for `n ≥ 1`: the last `n` elements. -/
def lastN (n : Nat) (l : List α) : List α := l.drop (l.length - n)

/-- The overlap-search loop of `StreamingManager.deduplicateOverlap`
(part_004 lines 87-98): try `i = 1 .. min 5 (min |prevWords| |currWords|)`
and keep the last (hence largest) `i` whose case-insensitive join of the
last `i` previous words equals that of the first `i` current words. -/
def overlapLen (prevWords currWords : List String) : Nat :=
  (List.range (min 5 (min prevWords.length currWords.length))).foldl
    (fun acc j =>
      if lowerStr (joinSpace (lastN (j + 1) prevWords))
          = lowerStr (joinSpace (currWords.take (j + 1))) then j + 1 else acc)
    0

/-- `StreamingManager.deduplicateOverlap` (part_004 lines 79-108):
if there is no previous text the current text is returned unchanged
(the guard `if (!previousText)`); otherwise both texts are split with
`.trim().split(/\s+/)`, the longest matching overlap (up to 5 words) is
found, and the current words minus the overlap are rejoined. -/
def deduplicateOverlap (previousText currentText : String) : String :=
  if previousText = "" then currentText
  else
    joinSpace ((jsSplitWs currentText).drop
      (overlapLen (jsSplitWs previousText) (jsSplitWs currentText)))

/-- State of a `StreamingManager` (part_004 lines 14-15). -/
structure StreamingManagerState where
  sessionText : String
  previousChunkText : String
deriving DecidableEq, Repr

/-- The session-text update in `StreamingManager.addChunkText`
(part_004 lines 31-39): append nothing when the deduplicated text is
empty (JavaScript falsiness), otherwise append it preceded by a single
space if the session text is non-empty. -/
def appendSession (session added : String) : String :=
  if added = "" then session
  else session ++ ((if session = "" then "" else " ") ++ added)

/-- `StreamingManager.addChunkText` (part_004 lines 23-42): deduplicate
against the previous chunk text, store the full raw text as the new
previous chunk text, extend the session text, and return the
deduplicated text. The chunk id is used only for logging. -/
def addChunkText (s : StreamingManagerState) (chunkId : Nat) (text : String) :
    StreamingManagerState × String :=
  let deduplicatedText := deduplicateOverlap s.previousChunkText text
  ({ sessionText := appendSession s.sessionText deduplicatedText
     previousChunkText := text }, deduplicatedText)

/-- `StreamingManager.reset` (part_004 lines 61-65): both fields cleared. -/
def streamingReset : StreamingManagerState := { sessionText := "", previousChunkText := "" }

/-- Folding a list of per-segment raw transcripts through `addChunkText`
starting from the reset state, as `SpeechService.handleChunkReady` does
for in-order segments; yields the final session text. -/
def runSegments (texts : List String) : String :=
  (texts.foldl (fun s t => (addChunkText s 0 t).1) streamingReset).sessionText

/-- Comparator for claim C1, following the specification text (§4.4)
word for word: tokenize the previous and the current raw text into
whitespace-delimited words, choose the largest `k ≤ min(5, |prevWords|,
|currWords|)` whose case-insensitive joins match (`k = 0` when there is
no previous segment, since then `prevWords = []`), append the current
words minus the first `k` joined by single spaces (with a separating
space if the transcript is non-empty), and store the full raw current
text as the previous-segment text. -/
def specMergeStep (s : StreamingManagerState) (text : String) : StreamingManagerState :=
  let pw := wordsOf s.previousChunkText
  let cw := wordsOf text
  let added := joinSpace (cw.drop (overlapLen pw cw))
  { sessionText := appendSession s.sessionText added
    previousChunkText := text }

/-! ### ChunkProcessor: stderr-based segment-completion detection -/

/-- The single-quote character, written by code point to keep source text
plain. -/
def quoteChar : Char := '\x27'

/-- Case-insensitive character comparison, as under the regex `i` flag. -/
def charEqCI (a b : Char) : Bool := a.toLower == b.toLower

/-- Match a literal pattern case-insensitively at the head of the input;
on success return the rest of the input. -/
def dropLitCI : List Char → List Char → Option (List Char)
  | [], l => some l
  | _ :: _, [] => none
  | p :: ps, c :: cs => if charEqCI p c then dropLitCI ps cs else none

/-- Match the regex tail `([^\x27]+)\x27`: a non-empty run of non-quote
characters followed by a closing quote. Returns the captured run and the
input after the closing quote. `acc` holds the reversed capture so far. -/
def takeCaptureAux : List Char → List Char → Option (List Char × List Char)
  | _, [] => none
  | acc, c :: cs =>
    if c = quoteChar then
      if acc = [] then none else some (acc.reverse, cs)
    else takeCaptureAux (c :: acc) cs

/-- Leftmost match of the regex `pat([^\x27]+)\x27` (case-insensitive),
where `pat` is a literal ending in an opening quote; returns the capture.
Models `text.match(/Closing \x27([^\x27]+)\x27/i)` from
`ChunkProcessor.handleStderrData` (part_003 line 102). -/
def findCaptureCI (pat : List Char) : List Char → Option String
  | [] => none
  | c :: cs =>
    match dropLitCI pat (c :: cs) with
    | some rest =>
      match takeCaptureAux [] rest with
      | some (cap, _) => some (String.mk cap)
      | none => findCaptureCI pat cs
    | none => findCaptureCI pat cs

/-- The literal head of pattern 1, `Closing \x27`. -/
def closingLit : List Char := "Closing \x27".data

/-- The literal head of pattern 2, `segment:\x27`. -/
def segmentLit : List Char := "segment:\x27".data

/-- The literal tail of pattern 2. -/
def endedLit : List Char := "ended".data

/-- The portion of the input on the current line: JavaScript `.` does not
match line terminators, so `.*ended` must find `ended` before the next
newline or carriage return. -/
def lineSeg (l : List Char) : List Char :=
  l.takeWhile (fun c => c ≠ '\n' && c ≠ '\r')

/-- Case-insensitive literal comparison at the head of the input. -/
def headMatchesCI : List Char → List Char → Bool
  | [], _ => true
  | _ :: _, [] => false
  | p :: ps, c :: cs => charEqCI p c && headMatchesCI ps cs

/-- Case-insensitive substring search. -/
def containsCI (pat : List Char) : List Char → Bool
  | [] => headMatchesCI pat []
  | c :: cs => headMatchesCI pat (c :: cs) || containsCI pat cs

/-- Leftmost match of `segment:\x27([^\x27]+)\x27.*ended` (case-insensitive),
returning the capture. Models `text.match(/segment:\x27([^\x27]+)\x27.*ended/i)`
from `ChunkProcessor.handleStderrData` (part_003 line 117): after the
captured file name and its closing quote, `ended` must occur later on the
same line. -/
def findSegmentCapture : List Char → Option String
  | [] => none
  | c :: cs =>
    match dropLitCI segmentLit (c :: cs) with
    | some rest =>
      match takeCaptureAux [] rest with
      | some (cap, rest2) =>
        if containsCI endedLit (lineSeg rest2) then some (String.mk cap)
        else findSegmentCapture cs
      | none => findSegmentCapture cs
    | none => findSegmentCapture cs

/-- Models Node `path.basename` on POSIX paths as used here: the part of
the string after the last slash. -/
def basename (s : String) : String :=
  String.mk ((s.data.reverse.takeWhile (fun c => c ≠ '/')).reverse)

/-- Structural string prefix test (character list based, so that proofs
and `decide` evaluate it directly). -/
def strStartsWith (s p : String) : Bool := p.data.isPrefixOf s.data

/-- Structural string suffix test. -/
def strEndsWith (s p : String) : Bool := p.data.reverse.isPrefixOf s.data.reverse

/-- The expected segment file-name scheme checked by
`ChunkProcessor.handleStderrData` (part_003 lines 108 and 122):
`chunkFileName.startsWith("chunk_") && chunkFileName.endsWith(".webm")`. -/
def isChunkFileName (s : String) : Bool :=
  strStartsWith s "chunk_" && strEndsWith s ".webm"

/-- Models Node `path.join(outputDir, chunkFileName)` for a directory
without a trailing slash. -/
def pathJoin (dir file : String) : String := dir ++ ("/" ++ file)

/-- The pattern-1 branch of `ChunkProcessor.handleStderrData`
(part_003 lines 102-114): on a `Closing \x27file\x27` match whose basename
fits the chunk naming scheme, the `chunkReady` payload is the joined path. -/
def closingSignal (outputDir data : String) : Option String :=
  match findCaptureCI closingLit data.data with
  | some fileName =>
    if isChunkFileName (basename fileName) then
      some (pathJoin outputDir (basename fileName))
    else none
  | none => none

/-- The pattern-2 branch of `ChunkProcessor.handleStderrData`
(part_003 lines 117-128). -/
def segmentSignal (outputDir data : String) : Option String :=
  match findSegmentCapture data.data with
  | some fileName =>
    if isChunkFileName (basename fileName) then
      some (pathJoin outputDir (basename fileName))
    else none
  | none => none

/-- `ChunkProcessor.handleStderrData` (part_003 lines 92-135): one stderr
data delivery is matched as a whole; a pattern-1 match with a valid chunk
name emits `chunkReady` and returns, otherwise the pattern-2 branch runs;
a delivery matching neither (or whose captured name fails the scheme)
only logs and emits nothing — there is no buffering of partial lines and
at most one signal per delivery. `some p` is the emitted `chunkReady`
payload. -/
def handleStderrData (outputDir data : String) : Option String :=
  match closingSignal outputDir data with
  | some p => some p
  | none => segmentSignal outputDir data

/-- The `chunkReady` signal sequence produced by a sequence of stderr
data deliveries: the handler is attached per delivery
(part_003 line 44) and keeps no state between deliveries. -/
def signalsOfDeliveries (outputDir : String) (deliveries : List String) : List String :=
  deliveries.filterMap (handleStderrData outputDir)

/-! ### SpeechService: controller state machine -/

/-- `SpeechState` (types.ts lines 8-12). -/
inductive SpeechState where
  | idle
  | recording
  | transcribing
deriving DecidableEq, Repr

/-- `RecordingMode` (types.ts lines 17-20). -/
inductive RecordingMode where
  | batch
  | streaming
deriving DecidableEq, Repr

/-- `StreamingConfig` (types.ts lines 25-30): all fields optional.
Durations are in seconds; the values used by the service are plain
numbers, modelled as integers. -/
structure StreamingConfig where
  chunkDurationSeconds : Option Int := none
  overlapDurationSeconds : Option Int := none
  language : Option String := none
  maxChunks : Option Int := none
deriving DecidableEq, Repr

/-- `Required<StreamingConfig>` as stored in `SpeechService.streamingConfig`. -/
structure RequiredStreamingConfig where
  chunkDurationSeconds : Int
  overlapDurationSeconds : Int
  language : String
  maxChunks : Int
deriving DecidableEq, Repr

/-- The config merge in `SpeechService.startStreamingRecording`
(SpeechService.ts lines 229-234): each field defaults when absent. -/
def mergeStreamingConfig (c : StreamingConfig) : RequiredStreamingConfig :=
  { chunkDurationSeconds := c.chunkDurationSeconds.getD 3
    overlapDurationSeconds := c.overlapDurationSeconds.getD 1
    language := c.language.getD "en"
    maxChunks := c.maxChunks.getD 0 }

/-- The mutable fields of `SpeechService` relevant to the start/stop
state machine (SpeechService.ts lines 27-49). `ffmpegRunning` records
whether a capture process has been spawned and not terminated. -/
structure ServiceState where
  state : SpeechState
  mode : RecordingMode
  streamingConfig : RequiredStreamingConfig
  chunkCounter : Nat
  manager : StreamingManagerState
  ffmpegRunning : Bool
deriving DecidableEq, Repr

/-- The initial `SpeechService` state built by the constructor
(SpeechService.ts lines 27-58). -/
def initialServiceState : ServiceState :=
  { state := .idle
    mode := .batch
    streamingConfig := { chunkDurationSeconds := 3, overlapDurationSeconds := 1,
                         language := "en", maxChunks := 0 }
    chunkCounter := 0
    manager := streamingReset
    ffmpegRunning := false }

/-- Outcome of the synchronous prefix of `startStreamingRecording`. -/
inductive StartOutcome where
  | alreadyRecording
  | configError
  | proceed
deriving DecidableEq, Repr

/-- The synchronous prefix of `SpeechService.startStreamingRecording`
(SpeechService.ts lines 216-238), up to the first asynchronous
operation: if the state is `RECORDING` it returns the already-recording
error with nothing changed; otherwise it sets state `RECORDING` and mode
`STREAMING`, stores the merged config, and then validates
`overlap < chunkDuration`, returning the configuration error
("Overlap must be less than chunk duration") on failure. `proceed`
means execution continues to the availability check, directory creation
and process spawn, all of which happen only after this validation, so
on both error outcomes no capture process has been launched
(`ffmpegRunning` is untouched). -/
def startStreamingSync (s : ServiceState) (config : StreamingConfig) :
    StartOutcome × ServiceState :=
  if s.state = .recording then (.alreadyRecording, s)
  else
    let merged := mergeStreamingConfig config
    let s1 := { s with state := .recording, mode := .streaming, streamingConfig := merged }
    if merged.overlapDurationSeconds ≥ merged.chunkDurationSeconds then (.configError, s1)
    else (.proceed, s1)

/-! ### SpeechService: segment-processing under the event loop

`setupChunkProcessorEvents` (SpeechService.ts lines 67-80) attaches
`async (chunkPath) => { await this.handleChunkReady(chunkPath) }` to the
`chunkReady` event. `EventEmitter.emit` invokes the handler
synchronously and does not await the returned promise, so
`handleChunkReady` (lines 526-563) runs atomically only up to its first
`await` (the `transcribeFile` call); the remainder (merge and progress
emission) runs when that transcription resolves, while later
`chunkReady` events start their own concurrent handler instances. The
model below replays this event loop: a `chunkReady` event runs the
synchronous prefix, a `transcriptionDone` event runs the continuation of
the named in-flight task. The transcript the gateway will return for a
segment is carried on its `chunkReady` event (the gateway is external),
and the non-fatal error path and `maxChunks` stop (inactive at its
default 0) are out of scope. -/

/-- One in-flight segment-processing task: the chunk id assigned by the
synchronous prefix, the file path, and the transcript the pending
transcription call will resolve with. -/
structure PendingTask where
  id : Nat
  chunkPath : String
  text : String
deriving DecidableEq, Repr

/-- State of the controller while processing ready segments:
`chunkCounter` (SpeechService.ts line 527), the in-flight tasks, the
`StreamingManager` state, and the `progressiveUpdate` events emitted so
far as (sequenceNumber, cumulative session text) pairs
(lines 539-549: `sequenceNumber` is `chunkId` and `text` is
`getSessionText()` after the merge). -/
structure LoopState where
  chunkCounter : Nat
  pending : List PendingTask
  manager : StreamingManagerState
  progress : List (Nat × String)
deriving DecidableEq, Repr

/-- The loop state right after `startStreamingRecording` resets the
counter and the manager (SpeechService.ts lines 274-275). -/
def initLoopState : LoopState :=
  { chunkCounter := 0, pending := [], manager := streamingReset, progress := [] }

/-- Events of the replayed event loop: a `chunkReady` signal for a file
(with the transcript its transcription will later return), or the
resolution of the transcription belonging to the task with the given
chunk id. -/
inductive LoopEvent where
  | chunkReady (chunkPath : String) (transcript : String)
  | transcriptionDone (id : Nat)
deriving DecidableEq, Repr

/-- Process one event-loop event (see the section comment):
`chunkReady` runs the synchronous prefix of `handleChunkReady`
(line 527: `const chunkId = this.chunkCounter++`, then the transcription
call is issued) — note the assigned id comes from the counter and the
chunk path is not parsed; `transcriptionDone i` runs the continuation of
task `i` (lines 536-550): merge via `addChunkText`, then emit
`progressiveUpdate` with `sequenceNumber = chunkId` and the updated
session text. -/
def procEvent (s : LoopState) : LoopEvent → LoopState
  | .chunkReady chunkPath transcript =>
    { s with chunkCounter := s.chunkCounter + 1
             pending := s.pending ++ [{ id := s.chunkCounter, chunkPath := chunkPath,
                                        text := transcript }] }
  | .transcriptionDone i =>
    match s.pending.find? (fun t => t.id == i) with
    | none => s
    | some t =>
      let m := (addChunkText s.manager t.id t.text).1
      { chunkCounter := s.chunkCounter
        pending := s.pending.filter (fun u => u.id != i)
        manager := m
        progress := s.progress ++ [(t.id, m.sessionText)] }

/-- Replay a list of event-loop events from the fresh streaming state. -/
def runEvents (events : List LoopEvent) : LoopState :=
  events.foldl procEvent initLoopState

/-! ### Derived predicates and concrete fixtures used by the claims -/

/-- A stderr text on which the `Closing \x27file\x27` pattern matches and the
captured name fits the chunk naming scheme. -/
def closingValid (t : String) : Bool :=
  match findCaptureCI closingLit t.data with
  | some f => isChunkFileName (basename f)
  | none => false

/-- A stderr text on which the fallback `segment:\x27file\x27...ended` pattern
matches and the captured name fits the chunk naming scheme. -/
def segmentValid (t : String) : Bool :=
  match findSegmentCapture t.data with
  | some f => isChunkFileName (basename f)
  | none => false

/-- A streaming configuration whose overlap equals the chunk duration. -/
def overlapEqualsChunkConfig : StreamingConfig :=
  { chunkDurationSeconds := some 3, overlapDurationSeconds := some 3 }

/-- The empty configuration: all defaults (chunk 3 s, overlap 1 s), valid. -/
def defaultStreamingStart : StreamingConfig := {}

/-- A controller mid-finalization: `stopStreamingRecording` has set the
state to `TRANSCRIBING` (SpeechService.ts line 323) while a session's
data is still present. -/
def transcribingExample : ServiceState :=
  { state := .transcribing
    mode := .streaming
    streamingConfig := { chunkDurationSeconds := 3, overlapDurationSeconds := 1,
                         language := "en", maxChunks := 0 }
    chunkCounter := 2
    manager := { sessionText := "hello there", previousChunkText := "there" }
    ffmpegRunning := false }

/-- A controller with a live recording session. -/
def recordingExample : ServiceState :=
  { state := .recording
    mode := .streaming
    streamingConfig := { chunkDurationSeconds := 3, overlapDurationSeconds := 1,
                         language := "en", maxChunks := 0 }
    chunkCounter := 1
    manager := { sessionText := "hi", previousChunkText := "hi" }
    ffmpegRunning := true }

/-! ### Helper lemmas -/

theorem str_append_empty (s : String) : s ++ "" = s := by
  cases s with
  | mk l =>
    show String.mk (l ++ []) = String.mk l
    rw [List.append_nil]

theorem wordsAux_ne_nil (l : List Char) :
    ∀ (acc : List Char) (w : String), w ∈ wordsAux l acc → w.data ≠ [] := by
  induction l with
  | nil =>
    intro acc w hw
    unfold wordsAux at hw
    split at hw
    · simp at hw
    · next h =>
      rw [List.mem_singleton] at hw
      subst hw
      show acc.reverse ≠ []
      simpa using h
  | cons c cs ih =>
    intro acc w hw
    unfold wordsAux at hw
    split at hw
    · split at hw
      · exact ih [] w hw
      · next h =>
        rcases List.mem_cons.mp hw with h1 | h2
        · subst h1
          show acc.reverse ≠ []
          simpa using h
        · exact ih [] w h2
    · exact ih (c :: acc) w hw

theorem lowerStr_ne_empty (w : String) (h : w.data ≠ []) : lowerStr w ≠ "" := by
  intro hc
  have hd : w.data.map Char.toLower = [] := congrArg String.data hc
  exact h (List.map_eq_nil_iff.mp hd)

theorem join_drop_single_empty (k : Nat) :
    joinSpace (List.drop k [("" : String)]) = "" := by
  cases k with
  | zero => rfl
  | succ n =>
    rw [List.drop_succ_cons, List.drop_nil]
    rfl

theorem join_drop_nil (k : Nat) : joinSpace (List.drop k ([] : List String)) = "" := by
  rw [List.drop_nil]
  rfl

theorem jsSplitWs_nil {s : String} (h : wordsOf s = []) : jsSplitWs s = [""] := by
  simp [jsSplitWs, h]

theorem jsSplitWs_cons {s : String} {w : String} {ws : List String}
    (h : wordsOf s = w :: ws) : jsSplitWs s = w :: ws := by
  simp [jsSplitWs, h]

theorem overlapLen_nil_left (cw : List String) : overlapLen [] cw = 0 := by
  simp [overlapLen]

theorem overlapLen_empty_word_cons (c : String) (cs : List String)
    (hc : lowerStr c ≠ "") : overlapLen [""] (c :: cs) = 0 := by
  have h1 : min 5 (min (List.length [("" : String)]) (List.length (c :: cs))) = 1 := by
    simp
  have hr : List.range 1 = [0] := rfl
  unfold overlapLen
  rw [h1, hr]
  show (if lowerStr (joinSpace (lastN (0 + 1) [""]))
      = lowerStr (joinSpace ((c :: cs).take (0 + 1))) then 0 + 1 else 0) = 0
  have hl : lastN (0 + 1) [("" : String)] = [""] := rfl
  have ht : (c :: cs).take (0 + 1) = [c] := rfl
  rw [hl, ht]
  show (if ("" : String) = lowerStr c then 0 + 1 else 0) = 0
  rw [if_neg (fun h => hc h.symm)]

/-- Core refinement fact: whenever there is a previous-segment text, the
deduplicated remainder computed by the code equals the one described by
the specification over genuine whitespace-delimited word lists. -/
theorem dedup_eq_spec (prev t : String) (h : prev ≠ "") :
    deduplicateOverlap prev t
      = joinSpace ((wordsOf t).drop (overlapLen (wordsOf prev) (wordsOf t))) := by
  unfold deduplicateOverlap
  rw [if_neg h]
  rcases hp : wordsOf prev with _ | ⟨p, ps⟩
  · rcases ht : wordsOf t with _ | ⟨c, cs⟩
    · rw [jsSplitWs_nil hp, jsSplitWs_nil ht,
        join_drop_single_empty, join_drop_nil]
    · have hmem : c ∈ wordsOf t := by
        rw [ht]; exact List.mem_cons_self c cs
      have hc := lowerStr_ne_empty c (wordsAux_ne_nil t.data [] c hmem)
      rw [jsSplitWs_nil hp, jsSplitWs_cons ht,
        overlapLen_empty_word_cons c cs hc, overlapLen_nil_left]
  · rcases ht : wordsOf t with _ | ⟨c, cs⟩
    · rw [jsSplitWs_cons hp, jsSplitWs_nil ht,
        join_drop_single_empty, join_drop_nil]
    · rw [jsSplitWs_cons hp, jsSplitWs_cons ht]

/-! ### Claims -/

/-- C1 counterexample: as stated, the claim says the appended text is
always computed from the tokenized word list of the current segment.
For the very first segment (no previous text) the code appends the raw
text verbatim (`deduplicateOverlap` returns `currentText` unchanged), so
a raw text with a double interior space is appended as is, while the
claimed word-based algorithm (spelled out by `specMergeStep`) would
append the words rejoined by single spaces. -/
theorem C1_counterexample :
    (addChunkText streamingReset 0 "a  b").1.sessionText = "a  b"
    ∧ (specMergeStep streamingReset "a  b").sessionText = "a b"
    ∧ ("a  b" : String) ≠ "a b" := by decide

/-- C1 (amended): whenever there is a previous segment,
`addChunkText` behaves exactly as the specification describes
(`specMergeStep`): it tokenizes both texts into whitespace-delimited
words, drops the largest case-insensitively matching overlap of up to 5
words, appends the remaining words joined by single spaces (with a
separating space if the transcript is non-empty) and stores the raw
current text as the previous-segment text. When there is no previous
segment the raw current text is appended verbatim instead of the
rejoined word list. The end-to-end scenario of the claim holds:
the segments "hello world", "world how are you", "are you doing fine"
yield the session transcript "hello world how are you doing fine". -/
theorem C1_amended (s : StreamingManagerState) (chunkId : Nat) (t : String) :
    (s.previousChunkText ≠ "" → (addChunkText s chunkId t).1 = specMergeStep s t)
    ∧ (s.previousChunkText = "" →
        (addChunkText s chunkId t).1
          = { sessionText := appendSession s.sessionText t, previousChunkText := t })
    ∧ runSegments ["hello world", "world how are you", "are you doing fine"]
        = "hello world how are you doing fine" := by
  refine ⟨?_, ?_, by decide⟩
  · intro h
    simp only [addChunkText, specMergeStep]
    rw [dedup_eq_spec s.previousChunkText t h]
  · intro h
    simp [addChunkText, deduplicateOverlap, h]

/-- C1 witness: the amended equivalence applied at a concrete state with
a non-empty previous segment. -/
theorem C1_witness :
    ((⟨"hello", "hello world"⟩ : StreamingManagerState).previousChunkText ≠ "")
    ∧ (addChunkText ⟨"hello", "hello world"⟩ 1 "world again").1
        = specMergeStep ⟨"hello", "hello world"⟩ "world again" :=
  ⟨by decide, (C1_amended ⟨"hello", "hello world"⟩ 1 "world again").1 (by decide)⟩

/-- C2: starting a streaming session from `Idle` with overlap ≥ chunk
duration returns the configuration error and launches no capture
process — but, contrary to the claim (and unlike every other failure
path of `startStreamingRecording`), the controller is left in the
`RECORDING` state, so a subsequent start with a valid (default)
configuration is rejected as already recording. -/
theorem C2_eval :
    (startStreamingSync initialServiceState overlapEqualsChunkConfig).1
      = StartOutcome.configError
    ∧ (startStreamingSync initialServiceState overlapEqualsChunkConfig).2.state
      = SpeechState.recording
    ∧ (startStreamingSync initialServiceState overlapEqualsChunkConfig).2.ffmpegRunning
      = false
    ∧ (startStreamingSync (startStreamingSync initialServiceState overlapEqualsChunkConfig).2
        defaultStreamingStart).1 = StartOutcome.alreadyRecording := by decide

/-- C3 counterexample: segment-processing units are not queued. In the
replayed event loop, two ready-signals arrive while both transcriptions
are in flight; segment 1's transcription resolves first, and its text is
merged and its progress event emitted before segment 0's — the progress
sequence numbers come out `[1, 0]` and the session text is
"bravo alpha", i.e. segment 1's text precedes segment 0's. -/
theorem C3_counterexample :
    (runEvents [LoopEvent.chunkReady "/d/chunk_000.webm" "alpha",
        LoopEvent.chunkReady "/d/chunk_001.webm" "bravo",
        LoopEvent.transcriptionDone 1,
        LoopEvent.transcriptionDone 0]).progress.map Prod.fst = [1, 0]
    ∧ (runEvents [LoopEvent.chunkReady "/d/chunk_000.webm" "alpha",
        LoopEvent.chunkReady "/d/chunk_001.webm" "bravo",
        LoopEvent.transcriptionDone 1,
        LoopEvent.transcriptionDone 0]).manager.sessionText = "bravo alpha"
    ∧ ([1, 0] : List Nat) ≠ [0, 1] := by decide

/-- C3 (amended): ready-signals are handled immediately rather than
queued: the synchronous prefix assigns counter values in arrival order,
but each segment's text is merged and its progress event emitted when
its own transcription resolves. If segment 1's transcription returns
before segment 0's, segment 1 is merged first (progress order `[1, 0]`,
manager state equal to merging text 1 then text 0); if completions
arrive in arrival order, the merge order is the arrival order. -/
theorem C3_amended (p0 p1 t0 t1 : String) :
    (runEvents [LoopEvent.chunkReady p0 t0, LoopEvent.chunkReady p1 t1,
        LoopEvent.transcriptionDone 1,
        LoopEvent.transcriptionDone 0]).progress.map Prod.fst = [1, 0]
    ∧ (runEvents [LoopEvent.chunkReady p0 t0, LoopEvent.chunkReady p1 t1,
        LoopEvent.transcriptionDone 1,
        LoopEvent.transcriptionDone 0]).manager
      = (addChunkText (addChunkText streamingReset 1 t1).1 0 t0).1
    ∧ (runEvents [LoopEvent.chunkReady p0 t0, LoopEvent.chunkReady p1 t1,
        LoopEvent.transcriptionDone 0,
        LoopEvent.transcriptionDone 1]).progress.map Prod.fst = [0, 1] := by
  refine ⟨?_, ?_, ?_⟩ <;>
    simp [runEvents, procEvent, initLoopState, List.find?, streamingReset]

/-- C4 counterexample: the already-active check of
`startStreamingRecording` tests only the `RECORDING` state. From the
`TRANSCRIBING` (finalizing) state, a start is not rejected with the
already-active error and the existing session data is not left
untouched (state, mode and stored config are overwritten). -/
theorem C4_counterexample :
    transcribingExample.state ≠ SpeechState.idle
    ∧ (startStreamingSync transcribingExample defaultStreamingStart).1
      ≠ StartOutcome.alreadyRecording
    ∧ (startStreamingSync transcribingExample defaultStreamingStart).2
      ≠ transcribingExample := by decide

/-- C4 (amended): calling start while in the `RECORDING` state fails
with the already-active error and returns the service state completely
unchanged — same state, same process, same chunk counter, same session
transcript. In the `TRANSCRIBING` state the check does not apply. -/
theorem C4_amended (s : ServiceState) (config : StreamingConfig)
    (h : s.state = SpeechState.recording) :
    startStreamingSync s config = (StartOutcome.alreadyRecording, s) := by
  simp [startStreamingSync, h]

/-- C4 witness: the amended property applied to a live recording session. -/
theorem C4_witness :
    recordingExample.state = SpeechState.recording
    ∧ startStreamingSync recordingExample defaultStreamingStart
        = (StartOutcome.alreadyRecording, recordingExample) :=
  ⟨by decide, C4_amended recordingExample defaultStreamingStart (by decide)⟩

/-- C5 counterexample: stderr handling is not invariant under chunking.
The completion message `Closing \x27chunk_001.webm\x27` delivered whole
yields one `chunkReady` signal, but the same text split into the two
deliveries `Closing \x27chu` and `nk_001.webm\x27` yields no signal at
all — the handler keeps no buffer across deliveries. -/
theorem C5_counterexample :
    ("Closing \x27chu" ++ "nk_001.webm\x27" : String) = "Closing \x27chunk_001.webm\x27"
    ∧ signalsOfDeliveries "/out" ["Closing \x27chunk_001.webm\x27"]
      = ["/out/chunk_001.webm"]
    ∧ signalsOfDeliveries "/out" ["Closing \x27chu", "nk_001.webm\x27"] = []
    ∧ (["/out/chunk_001.webm"] : List String) ≠ [] := by decide

/-- C5 (amended): each stderr data delivery is matched independently —
the signal sequence of concatenated delivery lists is the concatenation
of their signal sequences, with no state carried between deliveries —
and a delivery emits at most one signal: a delivery carrying two
completion messages yields only the first signal, a partial message
yields none. -/
theorem C5_amended (outputDir : String) (pre post : List String) :
    signalsOfDeliveries outputDir (pre ++ post)
      = signalsOfDeliveries outputDir pre ++ signalsOfDeliveries outputDir post
    ∧ handleStderrData "/out"
        "Closing \x27chunk_001.webm\x27\nClosing \x27chunk_002.webm\x27\n"
      = some "/out/chunk_001.webm"
    ∧ handleStderrData "/out" "Closing \x27chu" = none
    ∧ handleStderrData "/out" "nk_001.webm\x27" = none := by
  refine ⟨?_, by decide, by decide, by decide⟩
  simp [signalsOfDeliveries, List.filterMap_append]

/-- C6 counterexample: the progress event does not carry the sequence
number encoded in the file name. The first ready segment file is
`chunk_005.webm`, yet the emitted progress event carries sequence
number 0 (the internal counter), not 5. -/
theorem C6_counterexample :
    (runEvents [LoopEvent.chunkReady "/tmp/out/chunk_005.webm" "hi",
        LoopEvent.transcriptionDone 0]).progress = [(0, "hi")]
    ∧ (0 : Nat) ≠ 5 := by decide

/-- C6 (amended): progress events carry a sequence number drawn from the
internal 0-based arrival counter (`chunkCounter++`), never parsed from
the file name: when the capture process skips a segment number (files
`chunk_000.webm` then `chunk_002.webm`), the reported numbers are the
shifted `[0, 1]`, and the reported numbers are independent of the chunk
path entirely. -/
theorem C6_amended (t1 t2 : String) :
    (runEvents [LoopEvent.chunkReady "/d/chunk_000.webm" t1,
        LoopEvent.transcriptionDone 0,
        LoopEvent.chunkReady "/d/chunk_002.webm" t2,
        LoopEvent.transcriptionDone 1]).progress.map Prod.fst = [0, 1]
    ∧ (∀ p q u : String,
        (runEvents [LoopEvent.chunkReady p u,
            LoopEvent.transcriptionDone 0]).progress.map Prod.fst
          = (runEvents [LoopEvent.chunkReady q u,
              LoopEvent.transcriptionDone 0]).progress.map Prod.fst) := by
  refine ⟨?_, fun p q u => ?_⟩ <;>
    simp [runEvents, procEvent, initLoopState, List.find?]

/-- C7: a stderr text raises a `chunkReady` signal exactly when the
`Closing \x27file\x27` pattern matches with a captured basename that starts
with `chunk_` and ends with `.webm`, or the fallback
`segment:\x27file\x27...ended` pattern matches with such a basename; any
other text is ignored and never produces a signal (the non-matching
branch of the handler only logs, it has no error path). -/
theorem C7_signal_iff (outputDir t : String) :
    (handleStderrData outputDir t).isSome = (closingValid t || segmentValid t) := by
  unfold handleStderrData closingSignal segmentSignal closingValid segmentValid
  cases hcl : findCaptureCI closingLit t.data with
  | none =>
    cases hsg : findSegmentCapture t.data with
    | none => rfl
    | some g => by_cases hg : isChunkFileName (basename g) = true <;> simp [hg]
  | some f =>
    by_cases hf : isChunkFileName (basename f) = true
    · simp [hf]
    · cases hsg : findSegmentCapture t.data with
      | none => simp [hf]
      | some g => by_cases hg : isChunkFileName (basename g) = true <;> simp [hf, hg]

/-- C8: the session transcript only ever grows at the end: for every
manager state (hence for every call in any sequence of `addChunkText`
calls after a reset), the session text before the call is a prefix of
the session text after it. -/
theorem C8_session_monotone (s : StreamingManagerState) (chunkId : Nat) (t : String) :
    ∃ u, (addChunkText s chunkId t).1.sessionText = s.sessionText ++ u := by
  simp only [addChunkText, appendSession]
  split
  · exact ⟨"", (str_append_empty s.sessionText).symm⟩
  · exact ⟨_, rfl⟩

/-- C9: when the deduplicated remainder for a chunk is empty, the
session text is left exactly unchanged (no separator space is appended)
while the stored previous-chunk text is still updated to the new
segment's full raw text. -/
theorem C9_empty_remainder_frame (s : StreamingManagerState) (chunkId : Nat)
    (t : String) (h : deduplicateOverlap s.previousChunkText t = "") :
    (addChunkText s chunkId t).1
      = { sessionText := s.sessionText, previousChunkText := t } := by
  simp [addChunkText, appendSession, h]

/-- C9 witness: "world" is entirely absorbed by the one-word overlap
with the previous chunk "hello world". -/
theorem C9_witness :
    deduplicateOverlap "hello world" "world" = ""
    ∧ (addChunkText ⟨"hello world", "hello world"⟩ 7 "world").1
        = { sessionText := "hello world", previousChunkText := "world" } :=
  ⟨by decide, C9_empty_remainder_frame ⟨"hello world", "hello world"⟩ 7 "world" (by decide)⟩

/-- C10 counterexample: for the first merged segment the raw transcript
is appended verbatim, so interior whitespace runs survive into the
session transcript: raw text "hello  world" (double space) yields
session text "hello  world", not the single-spaced word join. -/
theorem C10_counterexample :
    (addChunkText streamingReset 0 "hello  world").1.sessionText = "hello  world"
    ∧ joinSpace (wordsOf "hello  world") = "hello world"
    ∧ ("hello  world" : String) ≠ "hello world" := by decide

/-- C10 (amended): for every merged segment with a non-empty
previous-segment text, the text contributed to the session transcript is
a tail of the segment's whitespace-delimited word list joined by single
spaces, so no leading/trailing whitespace or interior whitespace runs of
the raw transcript survive; only the first segment (empty previous text)
is appended verbatim. -/
theorem C10_amended (s : StreamingManagerState) (chunkId : Nat) (t : String)
    (h : s.previousChunkText ≠ "") :
    ∃ k, (addChunkText s chunkId t).2 = joinSpace ((wordsOf t).drop k) := by
  refine ⟨overlapLen (wordsOf s.previousChunkText) (wordsOf t), ?_⟩
  simp only [addChunkText]
  exact dedup_eq_spec s.previousChunkText t h

/-- C10 witness: the normalized-contribution property applied at a
concrete state with a non-empty previous segment and a raw text with
irregular whitespace. -/
theorem C10_witness :
    ((⟨"abc", "alpha"⟩ : StreamingManagerState).previousChunkText ≠ "")
    ∧ ∃ k, (addChunkText ⟨"abc", "alpha"⟩ 2 " b  c ").2
        = joinSpace ((wordsOf " b  c ").drop k) :=
  ⟨by decide, C10_amended ⟨"abc", "alpha"⟩ 2 " b  c " (by decide)⟩
